import Mathlib

/-!
# Verification of `wi_sales_downloader.py`

A shallow embedding of the Wisconsin sales-CSV downloader script, together
with theorems checking the natural-language specification against it.

Bytes are modelled as `Nat` values (each `< 256` where it matters), decoded
text as lists of Unicode code points (`Nat`).  Network and filesystem
effects are modelled by explicit oracles and event traces.
-/

namespace WiSales

/-! ## Month enumerator (`generate_months`, source lines 50-63)

The Python generator keeps a `(current_year, current_month)` pair, yields
`f"{year:04d}{month:02d}"`, and advances one calendar month per step,
wrapping the year after month 12.  We embed it as a recursive function
producing the whole (finite) list. -/

/-- Python's `f"{n:0wd}"` for a nonnegative integer: decimal digits of `n`
left-padded with zeros to a minimum width `w`. -/
def pad (w : Nat) (n : Nat) : String :=
  let s := toString n
  String.mk (List.replicate (w - s.length) '0') ++ s

/-- The serialized month identifier `f"{year:04d}{month:02d}"`. -/
def monthStr (year month : Nat) : String :=
  pad 4 year ++ pad 2 month

/-- `generate_months` from the source: yields identifiers from the start
month while `(year < now.year) or (year == now.year and month <= now.month)`,
advancing one month per step and wrapping the year at month 13. -/
def generate_months (start_year start_month now_year now_month : Nat) : List String :=
  if h : start_year < now_year ∨ (start_year = now_year ∧ start_month ≤ now_month) then
    monthStr start_year start_month ::
      (if h2 : start_month + 1 > 12 then
        generate_months (start_year + 1) 1 now_year now_month
      else
        generate_months start_year (start_month + 1) now_year now_month)
  else
    []
termination_by (now_year + 1 - start_year) * 13 + (13 - start_month)
decreasing_by
  · omega
  · omega

/-- Chronological index of a month pair: months since year 0, reading
`(y, m)` with `m ∈ [1,12]` as the `(m-1)`-th month of year `y`. -/
def monthIdx (year month : Nat) : Nat := year * 12 + (month - 1)

/-- The serialized month whose chronological index is `i`. -/
def monthOfIdx (i : Nat) : String := monthStr (i / 12) (i % 12 + 1)

/-- Characterization of the enumerator: for a valid start month and a valid
current month, it produces exactly the serialized months whose chronological
indices run from the start index to the current index inclusive. -/
theorem generate_months_range (now_year now_month : Nat)
    (hn1 : 1 ≤ now_month) (hn2 : now_month ≤ 12) :
    ∀ n start_year start_month, 1 ≤ start_month → start_month ≤ 12 →
      monthIdx now_year now_month + 1 - monthIdx start_year start_month = n →
      generate_months start_year start_month now_year now_month =
        (List.range' (monthIdx start_year start_month) n).map monthOfIdx := by
  intro n
  induction n with
  | zero =>
    intro y m hm1 hm2 hn
    unfold generate_months
    rw [dif_neg]
    · simp
    · unfold monthIdx at hn
      omega
  | succ k ih =>
    intro y m hm1 hm2 hn
    unfold generate_months
    rw [dif_pos]
    · rw [List.range'_succ, List.map_cons]
      have hidx : monthIdx y m / 12 = y ∧ monthIdx y m % 12 + 1 = m := by
        unfold monthIdx
        omega
      have hhead : monthOfIdx (monthIdx y m) = monthStr y m := by
        unfold monthOfIdx
        rw [hidx.1, hidx.2]
      rw [hhead]
      by_cases h12 : m + 1 > 12
      · rw [dif_pos h12]
        have hs : monthIdx (y + 1) 1 = monthIdx y m + 1 := by
          unfold monthIdx
          omega
        rw [ih (y + 1) 1 (by omega) (by omega) (by unfold monthIdx at *; omega), hs]
      · rw [dif_neg h12]
        have hs : monthIdx y (m + 1) = monthIdx y m + 1 := by
          unfold monthIdx
          omega
        rw [ih y (m + 1) (by omega) (by omega) (by unfold monthIdx at *; omega), hs]
    · unfold monthIdx at hn
      omega

/-! ## Existence prober (`file_exists`, source lines 66-72)

`requests.head` either completes with some HTTP status code or raises a
`requests.RequestException` (timeout, DNS failure, connection reset). -/

/-- Outcome of one `requests.head` call. -/
inductive HeadResult where
  /-- The request completed with the given HTTP status code. -/
  | ok (status : Nat)
  /-- The request raised a `requests.RequestException`. -/
  | exn
deriving DecidableEq, Repr

/-- `file_exists` from the source: `response.status_code == 200`, with any
`requests.RequestException` caught and turned into `False`. -/
def file_exists (r : HeadResult) : Bool :=
  match r with
  | .ok status => status == 200
  | .exn => false

/-! ## Run controller (`main`, source lines 151-207)

The network is an oracle giving the `HEAD` outcome for each URL and the
boolean results of the two download helpers for each URL; the initially
present files are a list of stems. The loop body is embedded as a step
function returning the new counters, whether the `break` fired, and the
trace of externally visible actions. -/

/-- The hardcoded base endpoint from the source. -/
def BASE_URL : String := "https://www.revenue.wi.gov/SLFReportsHistSales"

/-- Threshold from the source: stop after 3 consecutive missing files. -/
def max_consecutive_404s : Nat := 3

/-- Oracle for the network during one run: `HEAD` responses per URL, and
the results of `download_and_extract` / `download_csv_direct` per URL. -/
structure Net where
  head : String → HeadResult
  getZip : String → Bool
  getCsv : String → Bool

/-- The counters held by `main`. -/
structure RunState where
  downloaded : Nat
  skipped : Nat
  consecutive_404s : Nat
deriving DecidableEq, Repr

/-- Externally visible actions of one loop iteration. -/
inductive Event where
  /-- The month was skipped because its CSV is already present. -/
  | skip (csv_name : String)
  /-- A `HEAD` existence probe against the URL. -/
  | probe (url : String)
  /-- A download (`GET`) of the URL. -/
  | fetch (url : String)
  /-- Neither variant was found for the month's file stem. -/
  | notFound (filename : String)
deriving DecidableEq, Repr

/-- The archive-variant URL for a month: `f"{BASE_URL}/{filename}.zip"`. -/
def zipUrlOf (month : String) : String := BASE_URL ++ "/" ++ (month ++ "CSV") ++ ".zip"

/-- The bare-variant URL for a month: `f"{BASE_URL}/{csv_name}"`. -/
def csvUrlOf (month : String) : String := BASE_URL ++ "/" ++ (month ++ "CSV" ++ ".csv")

/-- One iteration of the `for month in generate_months(...)` loop
(source lines 169-204).  Returns the updated counters, whether the
`break` statement fired, and the event trace of the iteration. -/
def processMonth (net : Net) (existing : List String) (month : String)
    (st : RunState) : RunState × Bool × List Event :=
  let filename := month ++ "CSV"
  let csv_name := filename ++ ".csv"
  if existing.contains filename then
    ({ st with skipped := st.skipped + 1 }, false, [.skip csv_name])
  else
    let zip_url := BASE_URL ++ "/" ++ filename ++ ".zip"
    let csv_url := BASE_URL ++ "/" ++ csv_name
    if file_exists (net.head zip_url) then
      ({ st with consecutive_404s := 0,
                 downloaded := st.downloaded + (if net.getZip zip_url then 1 else 0) },
       false, [.probe zip_url, .fetch zip_url])
    else if file_exists (net.head csv_url) then
      ({ st with consecutive_404s := 0,
                 downloaded := st.downloaded + (if net.getCsv csv_url then 1 else 0) },
       false, [.probe zip_url, .probe csv_url, .fetch csv_url])
    else
      let st' := { st with consecutive_404s := st.consecutive_404s + 1 }
      (st', decide (st'.consecutive_404s ≥ max_consecutive_404s),
       [.probe zip_url, .probe csv_url, .notFound filename])

/-- The controller loop: iterate `processMonth` over the month list,
stopping as soon as an iteration's `break` fired.  Returns the final
counters, whether the loop was exited by `break`, and the whole trace. -/
def runLoop (net : Net) (existing : List String) :
    List String → RunState → RunState × Bool × List Event
  | [], st => (st, false, [])
  | month :: rest, st =>
    let r := processMonth net existing month st
    if r.2.1 then
      (r.1, true, r.2.2)
    else
      let rr := runLoop net existing rest r.1
      (rr.1, rr.2.1, r.2.2 ++ rr.2.2)

/-- A whole run of `main`'s loop over a month list, from zeroed counters. -/
def wi_run (net : Net) (existing : List String) (months : List String) :
    RunState × Bool × List Event :=
  runLoop net existing months ⟨0, 0, 0⟩

/-! ### Classification of a month, for stating controller properties -/

/-- The month's stem is already present locally. -/
def monthSkipped (existing : List String) (month : String) : Bool :=
  existing.contains (month ++ "CSV")

/-- A probe confirms existence at the archive URL or at the bare URL. -/
def monthFound (net : Net) (month : String) : Bool :=
  file_exists (net.head (zipUrlOf month)) || file_exists (net.head (csvUrlOf month))

/-- The month is neither locally present nor available at either URL. -/
def monthMiss (net : Net) (existing : List String) (month : String) : Bool :=
  !monthSkipped existing month && !monthFound net month

/-- Reference consecutive-miss streak after one month: unchanged on a skip,
reset on a found month, incremented on a miss. -/
def missStreakStep (net : Net) (existing : List String) (c : Nat) (month : String) : Nat :=
  if monthSkipped existing month then c
  else if monthFound net month then 0
  else c + 1

/-- Reference consecutive-miss streak at the end of a month list. -/
def missStreak (net : Net) (existing : List String) (months : List String) : Nat :=
  months.foldl (missStreakStep net existing) 0

/-! ## Text codecs

`bytes.decode(enc)` / `str.encode('utf-8')` as used by the fetchers.
Byte strings are `List Nat` (values `< 256`), decoded text is a list of
Unicode code points. -/

/-- `str.encode('utf-8')` for one code point. -/
def utf8EncodeChar (c : Nat) : List Nat :=
  if c < 0x80 then [c]
  else if c < 0x800 then [0xC0 + c / 64, 0x80 + c % 64]
  else if c < 0x10000 then [0xE0 + c / 4096, 0x80 + c / 64 % 64, 0x80 + c % 64]
  else [0xF0 + c / 262144, 0x80 + c / 4096 % 64, 0x80 + c / 64 % 64, 0x80 + c % 64]

/-- `str.encode('utf-8')` for a whole text. -/
def utf8Encode (text : List Nat) : List Nat :=
  text.flatMap utf8EncodeChar

/-- One scalar of a strict UTF-8 decode: from a nonempty byte string,
`some (cp, k)` gives the leading code point and the number `k` of
continuation bytes it consumed (`0`-`3`), `none` means a
`UnicodeDecodeError`.  Rejects continuation-byte leads, overlong forms
(`C0`/`C1` leads, `E0 80-9F`, `F0 80-8F`), surrogates (`ED A0-BF`) and
code points above `0x10FFFF` (`F4 90-BF` and leads `F5-FF`). -/
def utf8DecodeOne : List Nat → Option (Nat × Nat)
  | [] => none
  | b :: rest =>
    if b < 0x80 then some (b, 0)
    else if b < 0xC2 then none
    else if b < 0xE0 then
      match rest with
      | b1 :: _ =>
        if 0x80 ≤ b1 ∧ b1 < 0xC0 then
          some ((b - 0xC0) * 64 + (b1 - 0x80), 1)
        else none
      | [] => none
    else if b < 0xF0 then
      match rest with
      | b1 :: b2 :: _ =>
        if (0x80 ≤ b1 ∧ b1 < 0xC0) ∧ (b ≠ 0xE0 ∨ 0xA0 ≤ b1) ∧ (b ≠ 0xED ∨ b1 < 0xA0)
            ∧ (0x80 ≤ b2 ∧ b2 < 0xC0) then
          some ((b - 0xE0) * 4096 + (b1 - 0x80) * 64 + (b2 - 0x80), 2)
        else none
      | _ => none
    else if b < 0xF5 then
      match rest with
      | b1 :: b2 :: b3 :: _ =>
        if (0x80 ≤ b1 ∧ b1 < 0xC0) ∧ (b ≠ 0xF0 ∨ 0x90 ≤ b1) ∧ (b ≠ 0xF4 ∨ b1 < 0x90)
            ∧ (0x80 ≤ b2 ∧ b2 < 0xC0) ∧ (0x80 ≤ b3 ∧ b3 < 0xC0) then
          some ((b - 0xF0) * 262144 + (b1 - 0x80) * 4096 + (b2 - 0x80) * 64 + (b3 - 0x80), 3)
        else none
      | _ => none
    else none

/-- `bytes.decode('utf-8')` (strict): `some` code points on success, `none`
when a `UnicodeDecodeError` would be raised. -/
def utf8Decode : List Nat → Option (List Nat)
  | [] => some []
  | b :: rest =>
    match utf8DecodeOne (b :: rest) with
    | some (cp, k) => (utf8Decode (rest.drop k)).map (cp :: ·)
    | none => none
termination_by l => l.length
decreasing_by
  simp only [List.length_drop, List.length_cons]
  omega

/-- `bytes.decode('cp1252')` for one byte: the Windows-1252 table.  Bytes
`0x81, 0x8D, 0x8F, 0x90, 0x9D` are undefined and raise. -/
def cp1252DecodeByte (b : Nat) : Option Nat :=
  if b < 0x80 then some b
  else if 0xA0 ≤ b ∧ b < 0x100 then some b
  else
    match b with
    | 0x80 => some 0x20AC
    | 0x82 => some 0x201A
    | 0x83 => some 0x0192
    | 0x84 => some 0x201E
    | 0x85 => some 0x2026
    | 0x86 => some 0x2020
    | 0x87 => some 0x2021
    | 0x88 => some 0x02C6
    | 0x89 => some 0x2030
    | 0x8A => some 0x0160
    | 0x8B => some 0x2039
    | 0x8C => some 0x0152
    | 0x8E => some 0x017D
    | 0x91 => some 0x2018
    | 0x92 => some 0x2019
    | 0x93 => some 0x201C
    | 0x94 => some 0x201D
    | 0x95 => some 0x2022
    | 0x96 => some 0x2013
    | 0x97 => some 0x2014
    | 0x98 => some 0x02DC
    | 0x99 => some 0x2122
    | 0x9A => some 0x0161
    | 0x9B => some 0x203A
    | 0x9C => some 0x0153
    | 0x9E => some 0x017E
    | 0x9F => some 0x0178
    | _ => none

/-- `bytes.decode('cp1252')`: decodes byte-wise, failing if any byte is
undefined in Windows-1252. -/
def cp1252Decode (content : List Nat) : Option (List Nat) :=
  content.mapM cp1252DecodeByte

/-- `bytes.decode('latin-1')`: every byte value is the equal code point;
never fails. -/
def latin1Decode (content : List Nat) : List Nat := content

/-- The decoders named by the string literals in the source's encoding
list; unknown names decode nothing. -/
def pyDecode (encoding : String) (content : List Nat) : Option (List Nat) :=
  if encoding = "utf-8" then utf8Decode content
  else if encoding = "cp1252" then cp1252Decode content
  else if encoding = "latin-1" then some (latin1Decode content)
  else none

/-- The source's candidate list: `['utf-8', 'cp1252', 'latin-1']`. -/
def encodings : List String := ["utf-8", "cp1252", "latin-1"]

/-- How the `for encoding in [...]` trial loop exits. -/
inductive DecodeOutcome where
  /-- Some encoding decoded; the text was written (as UTF-8 bytes) and the
  loop returned `True`. -/
  | written (encoding : String) (outBytes : List Nat)
  /-- The loop ran out of candidates and fell through to `return False`. -/
  | fellThrough
  /-- Decoding failed on `'latin-1'` and the handler re-`raise`d. -/
  | raised
deriving DecidableEq, Repr

/-- The encoding-trial loop shared verbatim by both fetchers (source lines
92-103 and 129-140), over an arbitrary decoder oracle: try each candidate;
on success write `text` re-encoded as UTF-8 and return; on failure
re-raise if the candidate was `'latin-1'`, otherwise continue. -/
def tryEncodings (dec : String → List Nat → Option (List Nat)) (content : List Nat) :
    List String → DecodeOutcome
  | [] => .fellThrough
  | encoding :: rest =>
    match dec encoding content with
    | some text => .written encoding (utf8Encode text)
    | none =>
      if encoding = "latin-1" then .raised
      else tryEncodings dec content rest

/-- The conversion stage as the source runs it: the trial loop with the
real decoders over the source's candidate list. -/
def convertContent (content : List Nat) : DecodeOutcome :=
  tryEncodings pyDecode content encodings

/-! ## Fetchers (`download_and_extract` lines 75-114,
`download_csv_direct` lines 117-148)

`requests.get` either raises or completes with a status and body;
`raise_for_status` raises `requests.HTTPError` (a `RequestException`) for
4xx/5xx statuses.  Reading the single entry from the ZIP either raises
`zipfile.BadZipFile`, raises a `KeyError` (entry name absent; caught by
the generic `except Exception`), or yields the entry's bytes. -/

/-- Outcome of one `requests.get` call. -/
inductive FetchNet where
  /-- The request raised a `requests.RequestException`. -/
  | exn
  /-- The request completed with this status code and body. -/
  | resp (status : Nat) (body : List Nat)

/-- Outcome of `zipfile.ZipFile(...)` + `zip_file.read(csv_filename)`. -/
inductive ZipResult where
  /-- `zipfile.BadZipFile` was raised. -/
  | badZip
  /-- `zip_file.read` raised (no entry of the requested name). -/
  | noEntry
  /-- The entry's raw bytes. -/
  | entry (content : List Nat)

/-- What a fetcher call did: `returned = some b` means it returned `b`
normally; `returned = none` means an exception escaped the function.
`writes` lists the `(path, bytes)` file writes it performed. -/
structure FetchResult where
  returned : Option Bool
  writes : List (String × List Nat)
deriving DecidableEq, Repr

/-- `filename.replace(".zip", ".csv")`: replace every (non-overlapping,
leftmost-first) occurrence of `pat` in `s` by `rep`; the identity when the
pattern is empty (the source's pattern never is). -/
def replaceList (s pat rep : List Char) : List Char :=
  match pat with
  | [] => s
  | p0 :: ps =>
    match s with
    | [] => []
    | c :: cs =>
      if (p0 :: ps).isPrefixOf (c :: cs) then
        rep ++ replaceList ((c :: cs).drop (p0 :: ps).length) (p0 :: ps) rep
      else
        c :: replaceList cs (p0 :: ps) rep
termination_by s.length
decreasing_by
  · simp only [List.length_drop, List.length_cons]
    omega
  · simp

/-- `str.replace` on strings. -/
def strReplace (s pat rep : String) : String :=
  ⟨replaceList s.data pat.data rep.data⟩

/-- `download_and_extract` from the source, over a decoder oracle `dec`
and a ZIP-reading oracle `extract`.  All `RequestException`s,
`BadZipFile`s and generic `Exception`s (including the re-raised
`UnicodeDecodeError` from the `'latin-1'` branch, and the `KeyError` from
`zip_file.read`) are caught by the function's own handlers and become
`return False`. -/
def download_and_extract (dec : String → List Nat → Option (List Nat))
    (net : FetchNet) (extract : List Nat → String → ZipResult)
    (target_path filename : String) : FetchResult :=
  match net with
  | .exn => ⟨some false, []⟩
  | .resp status body =>
    if 400 ≤ status ∧ status < 600 then ⟨some false, []⟩
    else
      let csv_filename := strReplace filename ".zip" ".csv"
      let csv_path := target_path ++ "/" ++ csv_filename
      match extract body csv_filename with
      | .badZip => ⟨some false, []⟩
      | .noEntry => ⟨some false, []⟩
      | .entry csv_content =>
        match tryEncodings dec csv_content encodings with
        | .written _ outBytes => ⟨some true, [(csv_path, outBytes)]⟩
        | .fellThrough => ⟨some false, []⟩
        | .raised => ⟨some false, []⟩

/-- `download_csv_direct` from the source, over a decoder oracle `dec`:
like the archive fetcher but the response body is the content. -/
def download_csv_direct (dec : String → List Nat → Option (List Nat))
    (net : FetchNet) (target_path filename : String) : FetchResult :=
  match net with
  | .exn => ⟨some false, []⟩
  | .resp status body =>
    if 400 ≤ status ∧ status < 600 then ⟨some false, []⟩
    else
      let csv_path := target_path ++ "/" ++ filename
      match tryEncodings dec body encodings with
      | .written _ outBytes => ⟨some true, [(csv_path, outBytes)]⟩
      | .fellThrough => ⟨some false, []⟩
      | .raised => ⟨some false, []⟩

/-! ## UTF-8 round-trip: a strict decode followed by an encode restores
the original bytes.  This backs the "byte-identical output" part of the
spec's decoder property. -/

theorem utf8Encode_nil : utf8Encode [] = [] := rfl

theorem utf8Encode_cons (c : Nat) (cs : List Nat) :
    utf8Encode (c :: cs) = utf8EncodeChar c ++ utf8Encode cs := rfl

theorem utf8EncodeChar_ascii (b : Nat) (h : b < 0x80) :
    utf8EncodeChar b = [b] := by
  unfold utf8EncodeChar
  rw [if_pos h]

theorem utf8EncodeChar_two (b b1 : Nat)
    (hb1 : 0xC2 ≤ b) (hb2 : b < 0xE0) (h1 : 0x80 ≤ b1) (h2 : b1 < 0xC0) :
    utf8EncodeChar ((b - 0xC0) * 64 + (b1 - 0x80)) = [b, b1] := by
  unfold utf8EncodeChar
  rw [if_neg (by omega), if_pos (by omega)]
  have e1 : ((b - 0xC0) * 64 + (b1 - 0x80)) / 64 = b - 0xC0 := by omega
  have e2 : ((b - 0xC0) * 64 + (b1 - 0x80)) % 64 = b1 - 0x80 := by omega
  rw [e1, e2]
  simp only [List.cons.injEq, and_true]
  omega

theorem utf8EncodeChar_three (b b1 b2 : Nat)
    (hb1 : 0xE0 ≤ b) (hb2 : b < 0xF0)
    (h1 : 0x80 ≤ b1) (h2 : b1 < 0xC0) (hov : b ≠ 0xE0 ∨ 0xA0 ≤ b1)
    (h3 : 0x80 ≤ b2) (h4 : b2 < 0xC0) :
    utf8EncodeChar ((b - 0xE0) * 4096 + (b1 - 0x80) * 64 + (b2 - 0x80)) = [b, b1, b2] := by
  unfold utf8EncodeChar
  rw [if_neg (by omega), if_neg (by omega), if_pos (by omega)]
  have e1 : ((b - 0xE0) * 4096 + (b1 - 0x80) * 64 + (b2 - 0x80)) / 4096 = b - 0xE0 := by
    omega
  have e2 : ((b - 0xE0) * 4096 + (b1 - 0x80) * 64 + (b2 - 0x80)) / 64 % 64 = b1 - 0x80 := by
    omega
  have e3 : ((b - 0xE0) * 4096 + (b1 - 0x80) * 64 + (b2 - 0x80)) % 64 = b2 - 0x80 := by
    omega
  rw [e1, e2, e3]
  simp only [List.cons.injEq, and_true]
  omega

theorem utf8EncodeChar_four (b b1 b2 b3 : Nat)
    (hb1 : 0xF0 ≤ b) (hb2 : b < 0xF5)
    (h1 : 0x80 ≤ b1) (h2 : b1 < 0xC0) (hov : b ≠ 0xF0 ∨ 0x90 ≤ b1)
    (h3 : 0x80 ≤ b2) (h4 : b2 < 0xC0) (h5 : 0x80 ≤ b3) (h6 : b3 < 0xC0) :
    utf8EncodeChar ((b - 0xF0) * 262144 + (b1 - 0x80) * 4096 + (b2 - 0x80) * 64 + (b3 - 0x80)) =
      [b, b1, b2, b3] := by
  unfold utf8EncodeChar
  rw [if_neg (by omega), if_neg (by omega), if_neg (by omega)]
  have e1 :
      ((b - 0xF0) * 262144 + (b1 - 0x80) * 4096 + (b2 - 0x80) * 64 + (b3 - 0x80)) / 262144 =
        b - 0xF0 := by
    omega
  have e2 :
      ((b - 0xF0) * 262144 + (b1 - 0x80) * 4096 + (b2 - 0x80) * 64 + (b3 - 0x80)) / 4096 % 64 =
        b1 - 0x80 := by
    omega
  have e3 :
      ((b - 0xF0) * 262144 + (b1 - 0x80) * 4096 + (b2 - 0x80) * 64 + (b3 - 0x80)) / 64 % 64 =
        b2 - 0x80 := by
    omega
  have e4 :
      ((b - 0xF0) * 262144 + (b1 - 0x80) * 4096 + (b2 - 0x80) * 64 + (b3 - 0x80)) % 64 =
        b3 - 0x80 := by
    omega
  rw [e1, e2, e3, e4]
  simp only [List.cons.injEq, and_true]
  omega

/-- The scalar decoded from the head of a byte string re-encodes to
exactly the bytes it consumed. -/
theorem utf8DecodeOne_spec :
    ∀ l cp k, utf8DecodeOne l = some (cp, k) →
      ∀ b rest, l = b :: rest → utf8EncodeChar cp ++ rest.drop k = l := by
  intro l cp k h b rest hl
  subst hl
  by_cases hb0 : b < 0x80
  · simp only [utf8DecodeOne, if_pos hb0, Option.some.injEq, Prod.mk.injEq] at h
    obtain ⟨rfl, rfl⟩ := h
    rw [utf8EncodeChar_ascii b hb0]
    rfl
  · by_cases hb1 : b < 0xC2
    · simp [utf8DecodeOne, hb0, hb1] at h
    · by_cases hb2 : b < 0xE0
      · match rest with
        | [] => simp [utf8DecodeOne, hb0, hb1, hb2] at h
        | b1 :: rest2 =>
          by_cases hc : 0x80 ≤ b1 ∧ b1 < 0xC0
          · simp only [utf8DecodeOne, if_neg hb0, if_neg hb1, if_pos hb2, if_pos hc,
              Option.some.injEq, Prod.mk.injEq] at h
            obtain ⟨rfl, rfl⟩ := h
            rw [utf8EncodeChar_two b b1 (by omega) hb2 hc.1 hc.2]
            rfl
          · simp [utf8DecodeOne, hb0, hb1, hb2, hc] at h
      · by_cases hb3 : b < 0xF0
        · match rest with
          | [] => simp [utf8DecodeOne, hb0, hb1, hb2, hb3] at h
          | [b1] => simp [utf8DecodeOne, hb0, hb1, hb2, hb3] at h
          | b1 :: b2 :: rest3 =>
            by_cases hc : (0x80 ≤ b1 ∧ b1 < 0xC0) ∧ (b ≠ 0xE0 ∨ 0xA0 ≤ b1) ∧
                (b ≠ 0xED ∨ b1 < 0xA0) ∧ (0x80 ≤ b2 ∧ b2 < 0xC0)
            · simp only [utf8DecodeOne, if_neg hb0, if_neg hb1, if_neg hb2, if_pos hb3,
                if_pos hc, Option.some.injEq, Prod.mk.injEq] at h
              obtain ⟨rfl, rfl⟩ := h
              rw [utf8EncodeChar_three b b1 b2 (by omega) hb3 hc.1.1 hc.1.2 hc.2.1
                hc.2.2.2.1 hc.2.2.2.2]
              rfl
            · simp [utf8DecodeOne, hb0, hb1, hb2, hb3, hc] at h
        · by_cases hb4 : b < 0xF5
          · match rest with
            | [] => simp [utf8DecodeOne, hb0, hb1, hb2, hb3, hb4] at h
            | [b1] => simp [utf8DecodeOne, hb0, hb1, hb2, hb3, hb4] at h
            | [b1, b2] => simp [utf8DecodeOne, hb0, hb1, hb2, hb3, hb4] at h
            | b1 :: b2 :: b3 :: rest4 =>
              by_cases hc : (0x80 ≤ b1 ∧ b1 < 0xC0) ∧ (b ≠ 0xF0 ∨ 0x90 ≤ b1) ∧
                  (b ≠ 0xF4 ∨ b1 < 0x90) ∧ (0x80 ≤ b2 ∧ b2 < 0xC0) ∧ (0x80 ≤ b3 ∧ b3 < 0xC0)
              · simp only [utf8DecodeOne, if_neg hb0, if_neg hb1, if_neg hb2, if_neg hb3,
                  if_pos hb4, if_pos hc, Option.some.injEq, Prod.mk.injEq] at h
                obtain ⟨rfl, rfl⟩ := h
                rw [utf8EncodeChar_four b b1 b2 b3 (by omega) hb4 hc.1.1 hc.1.2 hc.2.1
                  hc.2.2.2.1.1 hc.2.2.2.1.2 hc.2.2.2.2.1 hc.2.2.2.2.2]
                rfl
              · simp [utf8DecodeOne, hb0, hb1, hb2, hb3, hb4, hc] at h
          · simp [utf8DecodeOne, hb0, hb1, hb2, hb3, hb4] at h

theorem utf8Decode_nil : utf8Decode [] = some [] := by
  unfold utf8Decode
  rfl

theorem utf8Decode_cons_some (b : Nat) (rest : List Nat) (cp k : Nat)
    (h : utf8DecodeOne (b :: rest) = some (cp, k)) :
    utf8Decode (b :: rest) = (utf8Decode (rest.drop k)).map (cp :: ·) := by
  conv_lhs => unfold utf8Decode
  rw [h]

theorem utf8Decode_cons_none (b : Nat) (rest : List Nat)
    (h : utf8DecodeOne (b :: rest) = none) :
    utf8Decode (b :: rest) = none := by
  conv_lhs => unfold utf8Decode
  rw [h]

/-- Re-encoding a strictly decoded byte string restores it exactly
(bounded-length version, for induction). -/
theorem utf8_encode_decode_aux :
    ∀ n l cs, l.length ≤ n → utf8Decode l = some cs → utf8Encode cs = l := by
  intro n
  induction n with
  | zero =>
    intro l cs hl hd
    match l with
    | [] =>
      rw [utf8Decode_nil] at hd
      cases hd
      rfl
    | b :: rest => simp at hl
  | succ m ih =>
    intro l cs hl hd
    match l with
    | [] =>
      rw [utf8Decode_nil] at hd
      cases hd
      rfl
    | b :: rest =>
      cases hone : utf8DecodeOne (b :: rest) with
      | none => rw [utf8Decode_cons_none b rest hone] at hd; cases hd
      | some v =>
        obtain ⟨cp, k⟩ := v
        rw [utf8Decode_cons_some b rest cp k hone] at hd
        rw [Option.map_eq_some'] at hd
        obtain ⟨cs', hdec, rfl⟩ := hd
        have hlen : (rest.drop k).length ≤ m := by
          simp only [List.length_cons] at hl
          simp only [List.length_drop]
          omega
        rw [utf8Encode_cons, ih (rest.drop k) cs' hlen hdec]
        exact utf8DecodeOne_spec (b :: rest) cp k hone b rest rfl

/-- Re-encoding a strictly decoded byte string restores it exactly. -/
theorem utf8_encode_decode (l cs : List Nat) (h : utf8Decode l = some cs) :
    utf8Encode cs = l :=
  utf8_encode_decode_aux l.length l cs le_rfl h

/-! ## Controller lemmas: what one loop iteration does in each of the
four cases, and how the loop composes. -/

theorem processMonth_skip_eq (net : Net) (ex : List String) (month : String) (st : RunState)
    (h : monthSkipped ex month = true) :
    processMonth net ex month st =
      ({ st with skipped := st.skipped + 1 }, false, [Event.skip (month ++ "CSV" ++ ".csv")]) := by
  unfold monthSkipped at h
  simp only [processMonth]
  rw [if_pos h]

theorem processMonth_zip_eq (net : Net) (ex : List String) (month : String) (st : RunState)
    (h : monthSkipped ex month = false)
    (hz : file_exists (net.head (zipUrlOf month)) = true) :
    processMonth net ex month st =
      ({ st with consecutive_404s := 0,
                 downloaded := st.downloaded + (if net.getZip (zipUrlOf month) then 1 else 0) },
       false, [Event.probe (zipUrlOf month), Event.fetch (zipUrlOf month)]) := by
  unfold monthSkipped at h
  unfold zipUrlOf at hz
  simp only [processMonth]
  rw [if_neg (ne_true_of_eq_false h), if_pos hz]
  rfl

theorem processMonth_csv_eq (net : Net) (ex : List String) (month : String) (st : RunState)
    (h : monthSkipped ex month = false)
    (hz : file_exists (net.head (zipUrlOf month)) = false)
    (hc : file_exists (net.head (csvUrlOf month)) = true) :
    processMonth net ex month st =
      ({ st with consecutive_404s := 0,
                 downloaded := st.downloaded + (if net.getCsv (csvUrlOf month) then 1 else 0) },
       false, [Event.probe (zipUrlOf month), Event.probe (csvUrlOf month),
               Event.fetch (csvUrlOf month)]) := by
  unfold monthSkipped at h
  unfold zipUrlOf at hz
  unfold csvUrlOf at hc
  simp only [processMonth]
  rw [if_neg (ne_true_of_eq_false h), if_neg (ne_true_of_eq_false hz), if_pos hc]
  rfl

theorem processMonth_miss_eq (net : Net) (ex : List String) (month : String) (st : RunState)
    (h : monthSkipped ex month = false)
    (hz : file_exists (net.head (zipUrlOf month)) = false)
    (hc : file_exists (net.head (csvUrlOf month)) = false) :
    processMonth net ex month st =
      ({ st with consecutive_404s := st.consecutive_404s + 1 },
       decide (st.consecutive_404s + 1 ≥ max_consecutive_404s),
       [Event.probe (zipUrlOf month), Event.probe (csvUrlOf month),
        Event.notFound (month ++ "CSV")]) := by
  unfold monthSkipped at h
  unfold zipUrlOf at hz
  unfold csvUrlOf at hc
  simp only [processMonth]
  rw [if_neg (ne_true_of_eq_false h), if_neg (ne_true_of_eq_false hz),
    if_neg (ne_true_of_eq_false hc)]
  rfl

/-- The new counter value after one iteration is the reference streak
step, in every case. -/
theorem processMonth_counter (net : Net) (ex : List String) (month : String) (st : RunState) :
    (processMonth net ex month st).1.consecutive_404s =
      missStreakStep net ex st.consecutive_404s month := by
  unfold missStreakStep
  by_cases h : monthSkipped ex month = true
  · rw [processMonth_skip_eq net ex month st h, if_pos h]
  · rw [if_neg h]
    rw [Bool.not_eq_true] at h
    by_cases hf : monthFound net month = true
    · rw [if_pos hf]
      unfold monthFound at hf
      rcases Bool.or_eq_true_iff.mp hf with hz | hc
      · rw [processMonth_zip_eq net ex month st h hz]
      · by_cases hz : file_exists (net.head (zipUrlOf month)) = true
        · rw [processMonth_zip_eq net ex month st h hz]
        · rw [Bool.not_eq_true] at hz
          rw [processMonth_csv_eq net ex month st h hz hc]
    · rw [if_neg hf]
      unfold monthFound at hf
      rw [Bool.not_eq_true, Bool.or_eq_false_iff] at hf
      rw [processMonth_miss_eq net ex month st h hf.1 hf.2]

/-- The skip counter after one iteration. -/
theorem processMonth_skipped (net : Net) (ex : List String) (month : String) (st : RunState) :
    (processMonth net ex month st).1.skipped =
      st.skipped + (if monthSkipped ex month = true then 1 else 0) := by
  by_cases h : monthSkipped ex month = true
  · rw [processMonth_skip_eq net ex month st h, if_pos h]
  · rw [if_neg h]
    rw [Bool.not_eq_true] at h
    by_cases hz : file_exists (net.head (zipUrlOf month)) = true
    · rw [processMonth_zip_eq net ex month st h hz]
      simp
    · rw [Bool.not_eq_true] at hz
      by_cases hc : file_exists (net.head (csvUrlOf month)) = true
      · rw [processMonth_csv_eq net ex month st h hz hc]
        simp
      · rw [Bool.not_eq_true] at hc
        rw [processMonth_miss_eq net ex month st h hz hc]
        simp

/-- Only a missing month can fire the `break`. -/
theorem processMonth_break (net : Net) (ex : List String) (month : String) (st : RunState)
    (h : (processMonth net ex month st).2.1 = true) :
    monthMiss net ex month = true ∧
      st.consecutive_404s + 1 ≥ max_consecutive_404s := by
  by_cases hs : monthSkipped ex month = true
  · rw [processMonth_skip_eq net ex month st hs] at h
    cases h
  · rw [Bool.not_eq_true] at hs
    by_cases hz : file_exists (net.head (zipUrlOf month)) = true
    · rw [processMonth_zip_eq net ex month st hs hz] at h
      cases h
    · rw [Bool.not_eq_true] at hz
      by_cases hc : file_exists (net.head (csvUrlOf month)) = true
      · rw [processMonth_csv_eq net ex month st hs hz hc] at h
        cases h
      · rw [Bool.not_eq_true] at hc
        rw [processMonth_miss_eq net ex month st hs hz hc] at h
        refine ⟨?_, of_decide_eq_true h⟩
        unfold monthMiss monthFound
        rw [hs, hz, hc]
        rfl

theorem runLoop_nil (net : Net) (ex : List String) (st : RunState) :
    runLoop net ex [] st = (st, false, []) := rfl

theorem runLoop_cons (net : Net) (ex : List String) (month : String) (rest : List String)
    (st : RunState) :
    runLoop net ex (month :: rest) st =
      (if (processMonth net ex month st).2.1 then
        ((processMonth net ex month st).1, true, (processMonth net ex month st).2.2)
      else
        ((runLoop net ex rest (processMonth net ex month st).1).1,
         (runLoop net ex rest (processMonth net ex month st).1).2.1,
         (processMonth net ex month st).2.2 ++
           (runLoop net ex rest (processMonth net ex month st).1).2.2)) := rfl

/-- The loop over `l ++ l'`: run `l`; if it broke, `l'` is never touched,
otherwise continue with `l'` from the reached state. -/
theorem runLoop_append (net : Net) (ex : List String) :
    ∀ (l l' : List String) (st : RunState),
      runLoop net ex (l ++ l') st =
        (if (runLoop net ex l st).2.1 then runLoop net ex l st
         else
          ((runLoop net ex l' (runLoop net ex l st).1).1,
           (runLoop net ex l' (runLoop net ex l st).1).2.1,
           (runLoop net ex l st).2.2 ++ (runLoop net ex l' (runLoop net ex l st).1).2.2)) := by
  intro l
  induction l with
  | nil =>
    intro l' st
    rw [List.nil_append, runLoop_nil]
    simp
  | cons month rest ih =>
    intro l' st
    rw [List.cons_append, runLoop_cons, runLoop_cons net ex month rest st]
    by_cases hbrk : (processMonth net ex month st).2.1 = true
    · rw [if_pos hbrk, if_pos hbrk]
      simp
    · rw [Bool.not_eq_true] at hbrk
      rw [hbrk]
      simp only [Bool.false_eq_true, if_false, ih]
      by_cases h2 : (runLoop net ex rest (processMonth net ex month st).1).2.1 = true
      · rw [if_pos h2, if_pos h2]
      · rw [Bool.not_eq_true] at h2
        rw [h2]
        simp [List.append_assoc]

/-- Unpack a miss: the month is not local and both probes failed. -/
theorem monthMiss_elim (net : Net) (ex : List String) (m : String)
    (h : monthMiss net ex m = true) :
    monthSkipped ex m = false ∧ file_exists (net.head (zipUrlOf m)) = false ∧
      file_exists (net.head (csvUrlOf m)) = false := by
  unfold monthMiss at h
  cases hs : monthSkipped ex m with
  | true => rw [hs] at h; simp at h
  | false =>
    rw [hs] at h
    cases hf : monthFound net m with
    | true => rw [hf] at h; simp at h
    | false =>
      unfold monthFound at hf
      rw [Bool.or_eq_false_iff] at hf
      exact ⟨rfl, hf.1, hf.2⟩

/-- On a miss, the reference streak step increments. -/
theorem missStreakStep_miss (net : Net) (ex : List String) (m : String) (cnt : Nat)
    (h : monthMiss net ex m = true) :
    missStreakStep net ex cnt m = cnt + 1 := by
  obtain ⟨h1, h2, h3⟩ := monthMiss_elim net ex m h
  unfold missStreakStep
  rw [if_neg (ne_true_of_eq_false h1), if_neg]
  unfold monthFound
  rw [h2, h3]
  simp

/-- If the loop did not break, the final skip counter counts exactly the
locally present months of the list. -/
theorem runLoop_skipped (net : Net) (ex : List String) :
    ∀ (months : List String) (st : RunState),
      (runLoop net ex months st).2.1 = false →
      (runLoop net ex months st).1.skipped =
        st.skipped + (months.filter (monthSkipped ex)).length := by
  intro months
  induction months with
  | nil =>
    intro st _
    rw [runLoop_nil]
    rfl
  | cons m rest ih =>
    intro st hflag
    rw [runLoop_cons] at hflag ⊢
    by_cases hbrk : (processMonth net ex m st).2.1 = true
    · rw [if_pos hbrk] at hflag
      cases hflag
    · rw [Bool.not_eq_true] at hbrk
      rw [hbrk] at hflag ⊢
      simp only [Bool.false_eq_true, if_false] at hflag ⊢
      rw [ih (processMonth net ex m st).1 hflag, processMonth_skipped]
      by_cases hs : monthSkipped ex m = true
      · rw [List.filter_cons_of_pos hs, if_pos hs]
        simp only [List.length_cons]
        omega
      · rw [Bool.not_eq_true] at hs
        rw [List.filter_cons_of_neg (by simp [hs]), if_neg (by simp [hs])]
        omega

/-- If every prefix keeps the reference streak below the threshold, the
loop never breaks. -/
theorem runLoop_no_break (net : Net) (ex : List String) :
    ∀ (months : List String) (st : RunState),
      (∀ n, List.foldl (missStreakStep net ex) st.consecutive_404s (months.take n) <
        max_consecutive_404s) →
      (runLoop net ex months st).2.1 = false := by
  intro months
  induction months with
  | nil =>
    intro st _
    rfl
  | cons m rest ih =>
    intro st hstreak
    rw [runLoop_cons]
    by_cases hbrk : (processMonth net ex m st).2.1 = true
    · exfalso
      obtain ⟨hmiss, hge⟩ := processMonth_break net ex m st hbrk
      have h1 := hstreak 1
      rw [List.take_succ_cons, List.take_zero, List.foldl_cons, List.foldl_nil,
        missStreakStep_miss net ex m st.consecutive_404s hmiss] at h1
      omega
    · rw [Bool.not_eq_true] at hbrk
      rw [hbrk]
      simp only [Bool.false_eq_true, if_false]
      refine ih (processMonth net ex m st).1 ?_
      intro n
      have hn := hstreak (n + 1)
      rw [List.take_succ_cons, List.foldl_cons] at hn
      rw [processMonth_counter]
      exact hn

/-- Three adjacent misses always fire the `break`, from any state. -/
theorem runLoop_three_misses (net : Net) (ex : List String) (a b c : String)
    (ha : monthMiss net ex a = true) (hb : monthMiss net ex b = true)
    (hc : monthMiss net ex c = true) (st : RunState) :
    (runLoop net ex [a, b, c] st).2.1 = true := by
  obtain ⟨ha1, ha2, ha3⟩ := monthMiss_elim net ex a ha
  obtain ⟨hb1, hb2, hb3⟩ := monthMiss_elim net ex b hb
  obtain ⟨hc1, hc2, hc3⟩ := monthMiss_elim net ex c hc
  rw [runLoop_cons net ex a [b, c] st, processMonth_miss_eq net ex a st ha1 ha2 ha3]
  by_cases h1 : st.consecutive_404s + 1 ≥ max_consecutive_404s
  · simp [h1]
  · simp only [decide_eq_true_eq, ge_iff_le, decide_eq_false (by omega : ¬ (max_consecutive_404s ≤ st.consecutive_404s + 1)), Bool.false_eq_true, if_false]
    rw [runLoop_cons, processMonth_miss_eq net ex b _ hb1 hb2 hb3]
    by_cases h2 : st.consecutive_404s + 1 + 1 ≥ max_consecutive_404s
    · simp [h2]
    · simp only [decide_eq_true_eq, ge_iff_le, decide_eq_false (by omega : ¬ (max_consecutive_404s ≤ st.consecutive_404s + 1 + 1)), Bool.false_eq_true, if_false]
      rw [runLoop_cons, processMonth_miss_eq net ex c _ hc1 hc2 hc3]
      have h3 : st.consecutive_404s + 1 + 1 + 1 ≥ max_consecutive_404s := by
        unfold max_consecutive_404s
        omega
      simp [h3]

/-! ## Claim theorems -/

/-- C2: for every valid start month (month in 1..12) and fixed valid
current month, `generate_months` yields exactly the identifiers from start
to current inclusive — ascending chronological indices with no gaps or
duplicates — each serialized as 4-digit year ++ 2-digit month; and when
the start is strictly after the current month it yields nothing. -/
theorem claim_C2 (start_year start_month now_year now_month : Nat)
    (h1 : 1 ≤ start_month) (h2 : start_month ≤ 12)
    (h3 : 1 ≤ now_month) (h4 : now_month ≤ 12) :
    generate_months start_year start_month now_year now_month =
      (List.range' (monthIdx start_year start_month)
        (monthIdx now_year now_month + 1 - monthIdx start_year start_month)).map monthOfIdx ∧
    (monthIdx now_year now_month < monthIdx start_year start_month →
      generate_months start_year start_month now_year now_month = []) := by
  have hmain :=
    generate_months_range now_year now_month h3 h4
      (monthIdx now_year now_month + 1 - monthIdx start_year start_month)
      start_year start_month h1 h2 rfl
  refine ⟨hmain, fun hlt => ?_⟩
  rw [hmain]
  have hz : monthIdx now_year now_month + 1 - monthIdx start_year start_month = 0 := by
    omega
  rw [hz]
  rfl

/-- Witness for C2 at a concrete window crossing a year boundary. -/
theorem claim_C2_witness :
    generate_months 2020 11 2021 2 =
      (List.range' (monthIdx 2020 11)
        (monthIdx 2021 2 + 1 - monthIdx 2020 11)).map monthOfIdx ∧
    generate_months 2020 11 2021 2 = ["202011", "202012", "202101", "202102"] := by
  have h := claim_C2 2020 11 2021 2 (by norm_num) (by norm_num) (by norm_num) (by norm_num)
  refine ⟨h.1, ?_⟩
  rw [h.1]
  decide

/-- C7: the existence prober returns true iff the `HEAD` request completed
with status exactly 200; a raised network exception gives false, and so
does any completed non-200 status. -/
theorem claim_C7 (r : HeadResult) :
    (file_exists r = true ↔ r = HeadResult.ok 200) ∧
    file_exists HeadResult.exn = false ∧
    (∀ s, s ≠ 200 → file_exists (HeadResult.ok s) = false) := by
  refine ⟨?_, rfl, fun s hs => ?_⟩
  · cases r with
    | ok s => simp [file_exists]
    | exn => simp [file_exists]
  · simp [file_exists, hs]

/-- Witness for C7 at concrete probe outcomes. -/
theorem claim_C7_witness :
    file_exists (HeadResult.ok 404) = false ∧ file_exists (HeadResult.ok 200) = true :=
  ⟨(claim_C7 (HeadResult.ok 404)).2.2 404 (by decide), by decide⟩

/-- C6: for a month that is not skipped the archive (`.zip`) URL is probed
first; the bare (`.csv`) URL is probed only when the archive probe failed;
the fetch issued matches the variant whose probe succeeded; and at most
one fetch happens per month. -/
theorem claim_C6 (net : Net) (ex : List String) (month : String) (st : RunState)
    (h : monthSkipped ex month = false) :
    (file_exists (net.head (zipUrlOf month)) = true →
      (processMonth net ex month st).2.2 =
        [Event.probe (zipUrlOf month), Event.fetch (zipUrlOf month)]) ∧
    (file_exists (net.head (zipUrlOf month)) = false →
      file_exists (net.head (csvUrlOf month)) = true →
      (processMonth net ex month st).2.2 =
        [Event.probe (zipUrlOf month), Event.probe (csvUrlOf month),
         Event.fetch (csvUrlOf month)]) ∧
    (file_exists (net.head (zipUrlOf month)) = false →
      file_exists (net.head (csvUrlOf month)) = false →
      (processMonth net ex month st).2.2 =
        [Event.probe (zipUrlOf month), Event.probe (csvUrlOf month),
         Event.notFound (month ++ "CSV")]) := by
  refine ⟨fun hz => ?_, fun hz hc => ?_, fun hz hc => ?_⟩
  · rw [processMonth_zip_eq net ex month st h hz]
  · rw [processMonth_csv_eq net ex month st h hz hc]
  · rw [processMonth_miss_eq net ex month st h hz hc]

/-- Witness for C6: with the archive variant present, only the archive is
probed and fetched. -/
theorem claim_C6_witness :
    (processMonth ⟨fun _ => HeadResult.ok 200, fun _ => true, fun _ => true⟩ [] "202001"
      ⟨0, 0, 0⟩).2.2 =
      [Event.probe (zipUrlOf "202001"), Event.fetch (zipUrlOf "202001")] :=
  (claim_C6 ⟨fun _ => HeadResult.ok 200, fun _ => true, fun _ => true⟩ [] "202001"
    ⟨0, 0, 0⟩ (by decide)).1 (by decide)

/-- C5 (amended): an already-present month is recorded as skipped and
nothing else happens to it — no probe and no fetch, counters other than
the skip count unchanged; and a run over distinct months whose directory
holds exactly the months of `M`, *provided the early stop does not fire*,
ends with skip count `M.length`.  (Without that proviso the count part
fails: see the counterexample.) -/
theorem claim_C5 :
    (∀ (net : Net) (ex : List String) (month : String) (st : RunState),
      monthSkipped ex month = true →
      processMonth net ex month st =
        ({ st with skipped := st.skipped + 1 }, false,
         [Event.skip (month ++ "CSV" ++ ".csv")])) ∧
    (∀ (net : Net) (ex months M : List String),
      months.Nodup → M.Nodup → (∀ mo ∈ M, mo ∈ months) →
      (∀ mo ∈ months, (monthSkipped ex mo = true ↔ mo ∈ M)) →
      (wi_run net ex months).2.1 = false →
      (wi_run net ex months).1.skipped = M.length) := by
  refine ⟨processMonth_skip_eq, fun net ex months M hnd hndM hsub hiff hflag => ?_⟩
  unfold wi_run at hflag ⊢
  rw [runLoop_skipped net ex months ⟨0, 0, 0⟩ hflag]
  have hperm : (months.filter (monthSkipped ex)).Perm M := by
    rw [List.perm_ext_iff_of_nodup (hnd.filter (monthSkipped ex)) hndM]
    intro a
    rw [List.mem_filter]
    constructor
    · rintro ⟨ham, hskip⟩
      exact (hiff a ham).mp hskip
    · intro haM
      exact ⟨hsub a haM, (hiff a (hsub a haM)).mpr haM⟩
  show 0 + (months.filter (monthSkipped ex)).length = M.length
  rw [hperm.length_eq]
  omega

/-- Witness for C5: two of three months already present are skipped. -/
theorem claim_C5_witness :
    (wi_run ⟨fun _ => HeadResult.ok 200, fun _ => true, fun _ => true⟩
        ["202001CSV", "202003CSV"] ["202001", "202002", "202003"]).1.skipped = 2 := by
  have h :=
    claim_C5.2 ⟨fun _ => HeadResult.ok 200, fun _ => true, fun _ => true⟩
      ["202001CSV", "202003CSV"] ["202001", "202002", "202003"] ["202001", "202003"]
      (by decide) (by decide) (by decide) (by decide) (by decide)
  rw [h]
  rfl

/-- C5 counterexample: when the consecutive-miss stop fires before a
locally present month is reached, that month is never recorded as
skipped: with the file for 202004 present (`k = 1`) but 202001-202003
missing remotely, the run stops early and the final skip count is 0,
not 1. -/
theorem claim_C5_counterexample :
    (wi_run ⟨fun _ => HeadResult.exn, fun _ => false, fun _ => false⟩ ["202004CSV"]
      ["202001", "202002", "202003", "202004"]).1.skipped = 0 ∧
    ¬((wi_run ⟨fun _ => HeadResult.exn, fun _ => false, fun _ => false⟩ ["202004CSV"]
      ["202001", "202002", "202003", "202004"]).1.skipped = 1) := by
  decide

/-- C1: the consecutive-miss counter of the controller is incremented
exactly when neither variant exists for a non-skipped month, reset to 0
whenever a probe confirms existence (whatever the fetch then returns),
and unchanged on skipped months; three adjacent missing months make the
run identical to the run truncated after them (nothing later is probed);
and if no prefix of the month list accumulates the streak to the
threshold, the loop never breaks early. -/
theorem claim_C1 :
    (∀ (net : Net) (ex : List String) (month : String) (st : RunState),
      monthSkipped ex month = false →
      ((monthFound net month = true →
          (processMonth net ex month st).1.consecutive_404s = 0) ∧
       (monthFound net month = false →
          (processMonth net ex month st).1.consecutive_404s = st.consecutive_404s + 1))) ∧
    (∀ (net : Net) (ex : List String) (month : String) (st : RunState),
      monthSkipped ex month = true →
      (processMonth net ex month st).1.consecutive_404s = st.consecutive_404s) ∧
    (∀ (net : Net) (ex pre post : List String) (a b c : String),
      monthMiss net ex a = true → monthMiss net ex b = true → monthMiss net ex c = true →
      wi_run net ex (pre ++ [a, b, c] ++ post) = wi_run net ex (pre ++ [a, b, c])) ∧
    (∀ (net : Net) (ex months : List String),
      (∀ n, missStreak net ex (months.take n) < max_consecutive_404s) →
      (wi_run net ex months).2.1 = false) := by
  refine ⟨fun net ex month st hs => ?_, fun net ex month st hs => ?_,
    fun net ex pre post a b c ha hb hc => ?_, fun net ex months hstreak => ?_⟩
  · rw [processMonth_counter]
    unfold missStreakStep
    rw [if_neg (ne_true_of_eq_false hs)]
    constructor
    · intro hf
      rw [if_pos hf]
    · intro hf
      rw [if_neg (ne_true_of_eq_false hf)]
  · rw [processMonth_counter]
    unfold missStreakStep
    rw [if_pos hs]
  · unfold wi_run
    rw [runLoop_append net ex (pre ++ [a, b, c]) post]
    have hflag : (runLoop net ex (pre ++ [a, b, c]) ⟨0, 0, 0⟩).2.1 = true := by
      rw [runLoop_append net ex pre [a, b, c]]
      by_cases hp : (runLoop net ex pre ⟨0, 0, 0⟩).2.1 = true
      · rw [if_pos hp]
        exact hp
      · rw [Bool.not_eq_true] at hp
        rw [hp]
        simp only [Bool.false_eq_true, if_false]
        exact runLoop_three_misses net ex a b c ha hb hc _
    rw [if_pos hflag]
  · exact runLoop_no_break net ex months ⟨0, 0, 0⟩ hstreak

/-- Witness for C1: with an all-failing network, three misses stop the
run before a fourth month is touched. -/
theorem claim_C1_witness :
    wi_run ⟨fun _ => HeadResult.exn, fun _ => false, fun _ => false⟩ []
        ["202001", "202002", "202003", "202004"] =
      wi_run ⟨fun _ => HeadResult.exn, fun _ => false, fun _ => false⟩ []
        ["202001", "202002", "202003"] :=
  claim_C1.2.2.1 ⟨fun _ => HeadResult.exn, fun _ => false, fun _ => false⟩ []
    [] ["202004"] "202001" "202002" "202003" (by decide) (by decide) (by decide)

/-- C8: with start 2020-01, current month 2020-03, the archive variant
present for 202001 and 202002 only, nothing for 202003, and an empty
directory, the run reports 2 downloaded, 0 skipped, and no early stop. -/
theorem claim_C8 :
    (wi_run
        ⟨fun u => if u = zipUrlOf "202001" ∨ u = zipUrlOf "202002" then HeadResult.ok 200
            else HeadResult.ok 404,
          fun _ => true, fun _ => true⟩
        [] (generate_months 2020 1 2020 3)).1.downloaded = 2 ∧
    (wi_run
        ⟨fun u => if u = zipUrlOf "202001" ∨ u = zipUrlOf "202002" then HeadResult.ok 200
            else HeadResult.ok 404,
          fun _ => true, fun _ => true⟩
        [] (generate_months 2020 1 2020 3)).1.skipped = 0 ∧
    (wi_run
        ⟨fun u => if u = zipUrlOf "202001" ∨ u = zipUrlOf "202002" then HeadResult.ok 200
            else HeadResult.ok 404,
          fun _ => true, fun _ => true⟩
        [] (generate_months 2020 1 2020 3)).2.1 = false := by
  have hm : generate_months 2020 1 2020 3 = ["202001", "202002", "202003"] := by
    rw [generate_months_range 2020 3 (by norm_num) (by norm_num) 3 2020 1 (by norm_num)
      (by norm_num) (by decide)]
    decide
  rw [hm]
  decide

/-! ## Conversion-stage lemmas: how the trial loop behaves with the real
decoders of the source's candidate list. -/

/-- With the real decoders, the trial loop reduces to trying `utf-8` and
falling back. -/
theorem convertContent_utf8 (content t : List Nat) (hu : utf8Decode content = some t) :
    convertContent content = DecodeOutcome.written "utf-8" (utf8Encode t) := by
  have hstep : convertContent content =
      (match utf8Decode content with
       | some text => DecodeOutcome.written "utf-8" (utf8Encode text)
       | none => tryEncodings pyDecode content ["cp1252", "latin-1"]) := rfl
  rw [hstep, hu]

theorem convertContent_cp1252 (content t : List Nat)
    (hu : utf8Decode content = none) (hc : cp1252Decode content = some t) :
    convertContent content = DecodeOutcome.written "cp1252" (utf8Encode t) := by
  have hstep : convertContent content =
      (match utf8Decode content with
       | some text => DecodeOutcome.written "utf-8" (utf8Encode text)
       | none => tryEncodings pyDecode content ["cp1252", "latin-1"]) := rfl
  rw [hstep, hu]
  have hstep2 : tryEncodings pyDecode content ["cp1252", "latin-1"] =
      (match cp1252Decode content with
       | some text => DecodeOutcome.written "cp1252" (utf8Encode text)
       | none => tryEncodings pyDecode content ["latin-1"]) := rfl
  rw [hstep2, hc]

theorem convertContent_latin1 (content : List Nat)
    (hu : utf8Decode content = none) (hc : cp1252Decode content = none) :
    convertContent content =
      DecodeOutcome.written "latin-1" (utf8Encode (latin1Decode content)) := by
  have hstep : convertContent content =
      (match utf8Decode content with
       | some text => DecodeOutcome.written "utf-8" (utf8Encode text)
       | none => tryEncodings pyDecode content ["cp1252", "latin-1"]) := rfl
  rw [hstep, hu]
  have hstep2 : tryEncodings pyDecode content ["cp1252", "latin-1"] =
      (match cp1252Decode content with
       | some text => DecodeOutcome.written "cp1252" (utf8Encode text)
       | none => tryEncodings pyDecode content ["latin-1"]) := rfl
  rw [hstep2, hc]
  rfl

/-- C3: the decoding stage tries `utf-8`, then `cp1252`, then `latin-1`
in that order, accepts the first that decodes, and writes the decoded
text re-encoded as UTF-8 to the target path; for valid UTF-8 input the
primary encoding is selected and the written bytes are identical to the
input (decode then re-encode is the identity there). -/
theorem claim_C3 (content : List Nat) :
    (∀ t, utf8Decode content = some t →
      convertContent content = DecodeOutcome.written "utf-8" (utf8Encode t) ∧
      utf8Encode t = content) ∧
    (utf8Decode content = none → ∀ t, cp1252Decode content = some t →
      convertContent content = DecodeOutcome.written "cp1252" (utf8Encode t)) ∧
    (utf8Decode content = none → cp1252Decode content = none →
      convertContent content =
        DecodeOutcome.written "latin-1" (utf8Encode (latin1Decode content))) ∧
    (∀ target_path filename t, utf8Decode content = some t →
      download_csv_direct pyDecode (FetchNet.resp 200 content) target_path filename =
        ⟨some true, [(target_path ++ "/" ++ filename, content)]⟩) ∧
    (∀ target_path filename t (extract : List Nat → String → ZipResult) (body : List Nat),
      utf8Decode content = some t →
      extract body (strReplace filename ".zip" ".csv") = ZipResult.entry content →
      download_and_extract pyDecode (FetchNet.resp 200 body) extract target_path filename =
        ⟨some true,
         [(target_path ++ "/" ++ strReplace filename ".zip" ".csv", content)]⟩) := by
  refine ⟨fun t hu => ⟨convertContent_utf8 content t hu, utf8_encode_decode content t hu⟩,
    fun hu t hc => convertContent_cp1252 content t hu hc,
    fun hu hc => convertContent_latin1 content hu hc,
    fun target_path filename t hu => ?_, fun target_path filename t extract body hu hex => ?_⟩
  · have hw := convertContent_utf8 content t hu
    have hrt := utf8_encode_decode content t hu
    have hcc : tryEncodings pyDecode content encodings = convertContent content := rfl
    have hs : ¬(400 ≤ 200 ∧ 200 < 600) := by omega
    simp only [download_csv_direct, hcc, hw, hrt, if_neg hs]
  · have hw := convertContent_utf8 content t hu
    have hrt := utf8_encode_decode content t hu
    have hcc : tryEncodings pyDecode content encodings = convertContent content := rfl
    have hs : ¬(400 ≤ 200 ∧ 200 < 600) := by omega
    simp only [download_and_extract, hex, hcc, hw, hrt, if_neg hs]

/-- Witness for C3 at concrete ASCII bytes. -/
theorem claim_C3_witness :
    convertContent [72, 105] = DecodeOutcome.written "utf-8" (utf8Encode [72, 105]) ∧
    utf8Encode [72, 105] = [72, 105] :=
  (claim_C3 [72, 105]).1 [72, 105] (by simp [utf8Decode, utf8DecodeOne])

/-- C9: the post-loop `return False` of both fetchers is unreachable:
`latin-1` decodes every byte sequence, so with the real decoders the
trial loop always exits from within an iteration and never falls
through. -/
theorem claim_C9 (content : List Nat) :
    pyDecode "latin-1" content = some (latin1Decode content) ∧
    convertContent content ≠ DecodeOutcome.fellThrough ∧
    (∃ encoding outBytes,
      convertContent content = DecodeOutcome.written encoding outBytes) := by
  refine ⟨rfl, ?_, ?_⟩
  · cases hu : utf8Decode content with
    | some t => rw [convertContent_utf8 content t hu]; nofun
    | none =>
      cases hc : cp1252Decode content with
      | some t => rw [convertContent_cp1252 content t hu hc]; nofun
      | none => rw [convertContent_latin1 content hu hc]; nofun
  · cases hu : utf8Decode content with
    | some t => exact ⟨"utf-8", utf8Encode t, convertContent_utf8 content t hu⟩
    | none =>
      cases hc : cp1252Decode content with
      | some t => exact ⟨"cp1252", utf8Encode t, convertContent_cp1252 content t hu hc⟩
      | none =>
        exact ⟨"latin-1", utf8Encode (latin1Decode content),
          convertContent_latin1 content hu hc⟩

/-- Witness for C9 at a byte that is invalid UTF-8 and undefined in
cp1252, so only the latin-1 fallback decodes it. -/
theorem claim_C9_witness :
    convertContent [0x81] ≠ DecodeOutcome.fellThrough := (claim_C9 [0x81]).2.1

/-- C10: in both fetchers, a write happens only after a successful
decode: every invocation that does not return `True` (network error,
error status, malformed archive, missing entry, or no decode having
succeeded) performs no write to the target path. -/
theorem claim_C10 :
    (∀ (dec : String → List Nat → Option (List Nat)) (net : FetchNet)
        (extract : List Nat → String → ZipResult) (target_path filename : String),
      (download_and_extract dec net extract target_path filename).returned ≠ some true →
      (download_and_extract dec net extract target_path filename).writes = []) ∧
    (∀ (dec : String → List Nat → Option (List Nat)) (net : FetchNet)
        (target_path filename : String),
      (download_csv_direct dec net target_path filename).returned ≠ some true →
      (download_csv_direct dec net target_path filename).writes = []) := by
  constructor
  · intro dec net extract target_path filename h
    cases net with
    | exn => rfl
    | resp status body =>
      simp only [download_and_extract] at h ⊢
      by_cases hs : 400 ≤ status ∧ status < 600
      · rw [if_pos hs]
      · rw [if_neg hs] at h ⊢
        cases hx : extract body (strReplace filename ".zip" ".csv") with
        | badZip => simp only []
        | noEntry => simp only []
        | entry csv_content =>
          rw [hx] at h
          simp only [] at h ⊢
          cases ht : tryEncodings dec csv_content encodings with
          | written encoding outBytes =>
            rw [ht] at h
            exact (h rfl).elim
          | fellThrough => simp only []
          | raised => simp only []
  · intro dec net target_path filename h
    cases net with
    | exn => rfl
    | resp status body =>
      simp only [download_csv_direct] at h ⊢
      by_cases hs : 400 ≤ status ∧ status < 600
      · rw [if_pos hs]
      · rw [if_neg hs] at h ⊢
        cases ht : tryEncodings dec body encodings with
        | written encoding outBytes =>
          rw [ht] at h
          exact (h rfl).elim
        | fellThrough => simp only []
        | raised => simp only []

/-- Witness for C10: a 404 response fetch returns `False` and writes
nothing. -/
theorem claim_C10_witness :
    (download_csv_direct pyDecode (FetchNet.resp 404 [65]) "dir" "f.csv").writes = [] :=
  claim_C10.2 pyDecode (FetchNet.resp 404 [65]) "dir" "f.csv" (by decide)

/-- C4 counterexample: with a decoder oracle on which every candidate
fails (the hypothetical the claim describes), the trial loop re-raises
from the `latin-1` branch — and the fetcher CATCHES that error in its own
generic `except Exception` handler, returning `False` with no writes.
The error does not escape the fetcher, contradicting the claim that it
propagates unhandled and terminates the run. -/
theorem claim_C4_counterexample :
    tryEncodings (fun _ _ => none) [65] encodings = DecodeOutcome.raised ∧
    (download_csv_direct (fun _ _ => none) (FetchNet.resp 200 [65]) "dir"
        "f.csv").returned = some false ∧
    ¬((download_csv_direct (fun _ _ => none) (FetchNet.resp 200 [65]) "dir"
        "f.csv").returned = none) := by
  decide

/-- C4 as amended: if all candidate encodings fail to decode (so the
`latin-1` branch re-raises), the raised error is caught by the fetcher's
own generic exception handler and converted into a per-file failure —
the function returns `False`, writes nothing, and the run continues. -/
theorem claim_C4 :
    (∀ (dec : String → List Nat → Option (List Nat)) (content : List Nat),
      dec "utf-8" content = none → dec "cp1252" content = none →
      dec "latin-1" content = none →
      tryEncodings dec content encodings = DecodeOutcome.raised) ∧
    (∀ (dec : String → List Nat → Option (List Nat)) (status : Nat) (body : List Nat)
        (target_path filename : String),
      ¬(400 ≤ status ∧ status < 600) →
      tryEncodings dec body encodings = DecodeOutcome.raised →
      download_csv_direct dec (FetchNet.resp status body) target_path filename =
        ⟨some false, []⟩) ∧
    (∀ (dec : String → List Nat → Option (List Nat)) (status : Nat)
        (body csv_content : List Nat) (extract : List Nat → String → ZipResult)
        (target_path filename : String),
      ¬(400 ≤ status ∧ status < 600) →
      extract body (strReplace filename ".zip" ".csv") = ZipResult.entry csv_content →
      tryEncodings dec csv_content encodings = DecodeOutcome.raised →
      download_and_extract dec (FetchNet.resp status body) extract target_path filename =
        ⟨some false, []⟩) := by
  refine ⟨fun dec content h1 h2 h3 => ?_, fun dec status body tp fn hs ht => ?_,
    fun dec status body csv_content extract tp fn hs hx ht => ?_⟩
  · have hstep : tryEncodings dec content encodings =
        (match dec "utf-8" content with
         | some text => DecodeOutcome.written "utf-8" (utf8Encode text)
         | none => tryEncodings dec content ["cp1252", "latin-1"]) := rfl
    rw [hstep, h1]
    have hstep2 : tryEncodings dec content ["cp1252", "latin-1"] =
        (match dec "cp1252" content with
         | some text => DecodeOutcome.written "cp1252" (utf8Encode text)
         | none => tryEncodings dec content ["latin-1"]) := rfl
    rw [hstep2, h2]
    have hstep3 : tryEncodings dec content ["latin-1"] =
        (match dec "latin-1" content with
         | some text => DecodeOutcome.written "latin-1" (utf8Encode text)
         | none => DecodeOutcome.raised) := rfl
    rw [hstep3, h3]
  · simp only [download_csv_direct, if_neg hs, ht]
  · simp only [download_and_extract, if_neg hs, hx, ht]

/-- Witness for C4 (amended) at a concrete all-failing decoder. -/
theorem claim_C4_witness :
    download_csv_direct (fun _ _ => none) (FetchNet.resp 200 [66]) "d" "g.csv" =
      ⟨some false, []⟩ :=
  claim_C4.2.1 (fun _ _ => none) 200 [66] "d" "g.csv" (by omega) (by decide)

end WiSales
